import Mathlib

/-!
Verification of the Codeforces Discord cog (`tle/cogs/codeforces.py`).

The module has three chat commands (`gitgud`, `rating`, `solved`) over the
Codeforces HTTP API plus a thin API wrapper (`query_api`).  We embed the pure
logic shallowly:

* JSON payloads become structures (`Problem`, `UserInfo`, `Submission`,
  `RatingChange`) carrying exactly the fields the code reads; optional JSON
  fields become `Option`.
* The remote API becomes an explicit environment (a function from handle to
  the response), and each command becomes a function from its inputs and
  that environment to the list of API calls it issued together with its
  visible outcome.  Unhandled Python exceptions become distinguished fault
  outcomes (`Except`-style), never silently defaulted values.
* The Python `dict` used by `gitgud` becomes an association list with
  dict-semantics insert (update in place, append when new) and pop.
* `random.choice(list(d.keys()))` becomes selection of the `i % n`-th key
  for an arbitrary natural `i`; we prove the key list has no duplicates, so
  a uniform index gives a uniform key.
-/

/-- One entry of `problemset.problems`: the fields `gitgud` reads.
`rating` and `contestId` are optional in the JSON (`problem.get('rating')`,
`'contestId' in problem`). -/
structure Problem where
  name : String
  index : String
  tags : List String
  rating : Option Int
  contestId : Option Int
  deriving DecidableEq, Repr

/-- One entry of `user.info`: only `rating` is read, and it may be absent. -/
structure UserInfo where
  rating : Option Int
  deriving DecidableEq, Repr

/-- One entry of `user.status`: the submission fields read by `gitgud` and
`solved` (`verdict`, `problem.name`, `problem.rating`). -/
structure Submission where
  verdict : String
  probName : String
  probRating : Option Int
  deriving DecidableEq, Repr

/-- One entry of `user.rating`: the fields read by the `rating` command. -/
structure RatingChange where
  newRating : Int
  updateTimeSeconds : Int
  deriving DecidableEq, Repr

/-- The function `round_rating` from `gitgud` (lines 37-40): Python `%` on ints is
Euclidean remainder, which is `Int.emod`, Lean's `%` on `Int`. -/
def round_rating (rating : Int) : Int :=
  let rem := rating % 100
  let r := rating - rem
  if rem ≥ 50 then r + 100 else r

/-- Key of the recommendation dict: the `(name, rating)` pair. -/
abbrev ProbKey := String × Int

/-- Value of the recommendation dict: the `(contestId, index)` pair. -/
abbrev ProbVal := Int × String

/-- The recommendation dict, as an association list. -/
abbrev RecDict := List (ProbKey × ProbVal)

/-- Python dict assignment `d[k] = v`: replace in place if the key is
present, append otherwise. -/
def dinsert (k : ProbKey) (v : ProbVal) : RecDict → RecDict
  | [] => [(k, v)]
  | kv :: rest => if kv.1 = k then (k, v) :: rest else kv :: dinsert k v rest

/-- Python dict lookup `d[k]` (as an `Option`). -/
def dlookup (k : ProbKey) : RecDict → Option ProbVal
  | [] => none
  | kv :: rest => if kv.1 = k then some kv.2 else dlookup k rest

/-- Python `d.pop(k, None)`: drop the entry with key `k`, if any. -/
def dpop (k : ProbKey) (d : RecDict) : RecDict :=
  d.filter (fun kv => kv.1 ≠ k)

/-- Keys of the dict, in order (`list(d.keys())`). -/
def dkeys (d : RecDict) : List ProbKey :=
  d.map (fun kv => kv.1)

/-- Body of the candidate loop of `gitgud` (lines 54-62) for one problem:
require `'*special' not in problem['tags']` and `problem.get('rating') ==
user_rating` (a present rating equal to the bucket, since `None == int` is
false in Python), then `'contestId' in problem`, and record
`(name, rating) ↦ (contestId, index)`. -/
def gitgudStep (bucket : Int) (d : RecDict) (p : Problem) : RecDict :=
  if "*special" ∉ p.tags ∧ p.rating = some bucket then
    if p.contestId.isSome then
      dinsert (p.name, p.rating.getD 0) (p.contestId.getD 0, p.index) d
    else d
  else d

/-- The candidate dict after the first loop of `gitgud`. -/
def buildRecs (bucket : Int) (problems : List Problem) : RecDict :=
  problems.foldl (gitgudStep bucket) []

/-- Body of the subtraction loop of `gitgud` (lines 64-69) for one
submission: `sub['verdict'] == 'OK' and 'rating' in problem`, then pop the
`(name, rating)` key. -/
def removeStep (d : RecDict) (sub : Submission) : RecDict :=
  if sub.verdict = "OK" ∧ sub.probRating.isSome then
    dpop (sub.probName, sub.probRating.getD 0) d
  else d

/-- The recommendation dict of `gitgud` after both loops. -/
def recommendations (bucket : Int) (problems : List Problem)
    (subs : List Submission) : RecDict :=
  subs.foldl removeStep (buildRecs bucket problems)

/-- A submission of this user solves key `k`: verdict `OK`, same problem
name, and a present rating equal to `k.2` (Boolean form). -/
def solvesKey (k : ProbKey) (sub : Submission) : Bool :=
  sub.verdict == "OK" && sub.probName == k.1 && sub.probRating == some k.2

/-- The user has an `OK` submission at key `k` (Boolean form). -/
def solvedOk (subs : List Submission) (k : ProbKey) : Bool :=
  subs.any (solvesKey k)

/-- A transport-level result: either a decoded JSON body or a connection
error (`aiohttp.ClientConnectionError`) with its message. -/
inductive Transport (α : Type) where
  | success (body : α)
  | connError (msg : String)
  deriving DecidableEq, Repr

/-- The wrapper `query_api` (lines 24-31): return the decoded body, or `None` when the
request raised a connection error (which is logged, not re-raised). -/
def query_api {α : Type} : Transport α → Option α
  | .success body => some body
  | .connError _ => none

/-- A decoded Codeforces API body: `status` is `"OK"` with a `result`, or
`"FAILED"` with a `comment`. -/
inductive RespJson (α : Type) where
  | failed (comment : String)
  | ok (result : List α)
  deriving DecidableEq, Repr

/-- Visible outcome of `gitgud`: either the text reply `'{handle} is
already too gud'`, or the recommendation reply carrying the chosen
`(name, rating)` key, the contest id, the problem index, and the embed
title / url / description strings. -/
inductive GitgudOutcome where
  | tooGud (msg : String)
  | recommend (choice : ProbKey) (contestid : Int) (index : String)
      (title : String) (url : String) (desc : String)
  deriving DecidableEq, Repr

/-- An unhandled fault inside `gitgud`: reading `['result']` out of a `None`
response (a `TypeError` in Python terms).  The three fetch responses are
read in the order `user.info` (line 47), `problemset.problems` (line 52),
`user.status` (line 64), then `contest.standings` (line 83). -/
inductive GitgudFault where
  | nullInfo
  | nullProb
  | nullSubs
  | nullContest
  deriving DecidableEq, Repr

/-- The url `http://codeforces.com/contest/{contestid}/problem/{index}`. -/
def problemUrl (contestid : Int) (index : String) : String :=
  "http://codeforces.com/contest/" ++ toString contestid ++ "/problem/" ++ index

/-- The call `random.choice(list(recommendations.keys()))`, resolved by an ambient
index `i`: the `i % n`-th key of the dict. -/
def gitgudChoice (recs : RecDict) (i : Nat) : ProbKey :=
  (dkeys recs).getD (i % (dkeys recs).length) ("", 0)

/-- The lookup `recommendations[(name, rating)]` for the chosen key. -/
def gitgudVal (recs : RecDict) (i : Nat) : ProbVal :=
  (dlookup (gitgudChoice recs i) recs).getD (0, "")

/-- The tail of `gitgud` (lines 71-88): the empty check and reply, or the
random choice, the `contest.standings` fetch (faulting on a null response)
and the embed reply. -/
def gitgudPick (handle : String) (recs : RecDict)
    (contestEnv : Int → Option String) (i : Nat) :
    Except GitgudFault GitgudOutcome :=
  if recs.isEmpty then .ok (.tooGud (handle ++ " is already too gud"))
  else
    let k := gitgudChoice recs i
    let v := gitgudVal recs i
    match contestEnv v.1 with
    | none => .error .nullContest
    | some contestname =>
      .ok (.recommend k v.1 v.2
        (v.2 ++ ". " ++ k.1)
        (problemUrl v.1 v.2)
        (contestname ++ "\nRating: " ++ toString k.2))

/-- The whole `gitgud` command (lines 34-88).  `probresp`, `inforesp` and
`subsresp` are the three `query_api` results (already `Option`: `none` is a
connection failure).  `contestEnv` maps a contest id to the
`contest.standings` result (the contest name), again `none` on connection
failure.  `i` resolves `random.choice`: the `i % n`-th key is chosen.
A fault is an unhandled exception: no user-visible reply at all. -/
def gitgudCmd (handle : String) (probresp : Option (List Problem))
    (inforesp : Option UserInfo) (subsresp : Option (List Submission))
    (contestEnv : Int → Option String) (i : Nat) :
    Except GitgudFault GitgudOutcome :=
  match inforesp with
  | none => .error .nullInfo
  | some info =>
    let user_rating := round_rating (info.rating.getD 500)
    match probresp with
    | none => .error .nullProb
    | some problems =>
      match subsresp with
      | none => .error .nullSubs
      | some subs =>
        gitgudPick handle (recommendations user_rating problems subs)
          contestEnv i

/-- Python substring test `needle in hay` on the character lists. -/
def occursIn (needle : List Char) : List Char → Bool
  | [] => needle.isEmpty
  | c :: t => needle.isPrefixOf (c :: t) || occursIn needle t

/-- Python `needle in hay` on strings. -/
def strIn (needle hay : String) : Bool :=
  occursIn needle.data hay.data

/-- The zero-width space prepended to every legend label. -/
def zws : String := "\u200b"

/-- Reply of the `rating` command: a text message, the chart image (whose
legend labels we record), or the unhandled `IndexError` raised by
`ratings[-1]` on an empty rating history (no reply at all). -/
inductive RatingReply where
  | message (s : String)
  | chart (labels : List String)
  | indexFault
  deriving DecidableEq, Repr

def badCountMsg : String := "Number of handles must be between 1 and 5"

def connErrMsg : String := "Error connecting to Codeforces API"

def deniedMsg : String :=
  "Codeforces API denied the request, please make sure handles are valid."

def handleNotFoundMsg (handle : String) : String :=
  "Handle not found: `" ++ handle ++ "`"

/-- One legend label of the `rating` chart: `{zws}{handle} ({rating})`. -/
def ratingLabel (p : String × Int) : String :=
  zws ++ p.1 ++ " (" ++ toString p.2 ++ ")"

/-- The per-handle loop of `rating` (lines 99-120).  `env` maps a handle to
its `user.rating` response (`none` = connection failure).  `acc` collects
`(handle, last rating)` pairs, `calls` the handles queried so far.  The
returned first component is the full list of API calls issued. -/
def ratingLoop (env : String → Option (RespJson RatingChange)) :
    List String → List (String × Int) → List String →
    List String × RatingReply
  | [], acc, calls => (calls, .chart (acc.map ratingLabel))
  | h :: rest, acc, calls =>
    let calls := calls ++ [h]
    match env h with
    | none => (calls, .message connErrMsg)
    | some (.failed comment) =>
      if strIn "not found" comment then (calls, .message (handleNotFoundMsg h))
      else (calls, .message deniedMsg)
    | some (.ok contests) =>
      match (contests.map (fun c => c.newRating)).getLast? with
      | none => (calls, .indexFault)
      | some r => ratingLoop env rest (acc ++ [(h, r)]) calls

/-- The whole `rating` command (lines 91-143): handle-count validation,
then the per-handle loop. -/
def ratingCmd (env : String → Option (RespJson RatingChange))
    (handles : List String) : List String × RatingReply :=
  if handles.isEmpty || handles.length > 5 then ([], .message badCountMsg)
  else ratingLoop env handles [] []

/-- Python truthiness of `problem.get('rating')`: false for `None` and for
the integer `0`. -/
def truthyInt : Option Int → Bool
  | none => false
  | some r => !(r == 0)

/-- Fold step of the dedup loop of `solved` (lines 170-177): on verdict
`OK`, read `problem.get('rating')` and keep the pair only when the rating
is truthy — a Python `if rating:` is false both for `None` and for `0`. -/
def solvedStep (s : Finset ProbKey) (sub : Submission) : Finset ProbKey :=
  if sub.verdict = "OK" then
    if truthyInt sub.probRating then insert (sub.probName, sub.probRating.getD 0) s
    else s
  else s

/-- The per-handle set of solved `(name, rating)` pairs of `solved`. -/
def solvedSet (subs : List Submission) : Finset ProbKey :=
  subs.foldl solvedStep ∅

/-- The plotted series for one handle: `[rating for name, rating in
problems]` iterates a Python set in unspecified order, so the series is
the multiset of ratings of the solved set. -/
def solvedSeries (subs : List Submission) : Multiset Int :=
  (solvedSet subs).val.map (fun k => k.2)

/-- One legend label of the `solved` chart:
`{zws}{handle}: {len(ratings)}`. -/
def solvedLabel (p : String × Multiset Int) : String :=
  zws ++ p.1 ++ ": " ++ toString (Multiset.card p.2)

/-- The histogram bin step of `solved` (line 183). -/
def histStep (numHandles : Nat) : Nat :=
  if numHandles = 1 then 100 else 200

/-- Python `range(start, stop, step)` for a positive step: the arithmetic
progression from `start` strictly below `stop`. -/
def pyRange (start stop step : Nat) : List Nat :=
  (List.range ((stop - start + step - 1) / step)).map (fun i => start + step * i)

/-- The histogram bin edges of `solved` (line 184):
`list(range(500, 3800 + step, step))`. -/
def histBins (numHandles : Nat) : List Nat :=
  pyRange 500 (3800 + histStep numHandles) (histStep numHandles)

/-- Reply of the `solved` command: a text message, or the chart image with
its bin edges, one rating series per handle, and the legend labels. -/
inductive SolvedReply where
  | message (s : String)
  | chart (bins : List Nat) (series : List (Multiset Int)) (labels : List String)
  deriving DecidableEq

/-- The per-handle loop of `solved` (lines 154-180) plus the chart reply
(lines 182-199).  `env` maps a handle to its `user.status` response.
`acc` collects `(handle, ratings series)` pairs, `calls` the handles
queried so far. -/
def solvedLoop (env : String → Option (RespJson Submission))
    (numHandles : Nat) :
    List String → List (String × Multiset Int) → List String →
    List String × SolvedReply
  | [], acc, calls =>
    (calls, .chart (histBins numHandles) (acc.map (fun p => p.2))
      (acc.map solvedLabel))
  | h :: rest, acc, calls =>
    let calls := calls ++ [h]
    match env h with
    | none => (calls, .message connErrMsg)
    | some (.failed comment) =>
      if strIn "not found" comment then (calls, .message (handleNotFoundMsg h))
      else (calls, .message deniedMsg)
    | some (.ok submissions) =>
      solvedLoop env numHandles rest (acc ++ [(h, solvedSeries submissions)]) calls

/-- The whole `solved` command (lines 146-199): handle-count validation,
then the per-handle loop and the histogram reply. -/
def solvedCmd (env : String → Option (RespJson Submission))
    (handles : List String) : List String × SolvedReply :=
  if handles.isEmpty || handles.length > 5 then ([], .message badCountMsg)
  else solvedLoop env handles.length handles [] []

/-- The candidate condition of the first `gitgud` loop, for key `k`:
not tagged `*special`, rating present and equal to the bucket, contest id
present, and `k` is the `(name, rating)` pair of the problem. -/
def candAt (bucket : Int) (k : ProbKey) (p : Problem) : Prop :=
  "*special" ∉ p.tags ∧ p.rating = some bucket ∧
    p.contestId.isSome ∧ k = (p.name, bucket)

section GitgudSanity

example : round_rating 149 = 100 := by decide
example : round_rating 150 = 200 := by decide
example : dinsert ("a", 1) (2, "A") [(("a", 1), (9, "Z")), (("b", 1), (3, "B"))]
    = [(("a", 1), (2, "A")), (("b", 1), (3, "B"))] := by decide
example :
    recommendations 500
      [⟨"p", "A", [], some 500, some 7⟩, ⟨"q", "B", ["*special"], some 500, some 8⟩]
      [⟨"OK", "p", some 500⟩] = [] := by decide
example :
    recommendations 500
      [⟨"p", "A", [], some 500, some 7⟩]
      [⟨"WRONG_ANSWER", "p", some 500⟩] = [(("p", 500), (7, "A"))] := by decide

end GitgudSanity

section CommandSanity

example : ratingCmd (fun _ => none) [] = ([], .message badCountMsg) := by decide
example :
    ratingCmd (fun _ => none) ["a"] = (["a"], .message connErrMsg) := by
  decide
example :
    ratingCmd (fun _ => some (.failed "handle not found")) ["a"]
      = (["a"], .message (handleNotFoundMsg "a")) := by decide
example :
    ratingCmd (fun _ => some (.ok [⟨1500, 0⟩, ⟨1600, 1⟩])) ["a"]
      = (["a"], .chart [ratingLabel ("a", 1600)]) := by decide
example :
    ratingCmd (fun _ => some (.ok [])) ["a"] = (["a"], .indexFault) := by decide
example :
    solvedCmd (fun _ => some (.ok [⟨"OK", "p", some 800⟩, ⟨"OK", "p", some 800⟩]))
      ["a"]
      = (["a"], .chart (histBins 1) [{800}] [solvedLabel ("a", {800})]) := by decide
example : histBins 1 ≠ histBins 2 := by decide

end CommandSanity

/-! ### Dictionary lemmas -/

theorem dlookup_dinsert (d : RecDict) (k kk : ProbKey) (v : ProbVal) :
    dlookup k (dinsert kk v d) = if kk = k then some v else dlookup k d := by
  induction d with
  | nil => simp only [dinsert, dlookup]
  | cons kv rest ih =>
    by_cases h2 : kk = k
    · subst h2
      by_cases h1 : kv.1 = kk <;> simp [dinsert, dlookup, h1, ih]
    · by_cases h1 : kv.1 = kk <;> simp [dinsert, dlookup, h1, h2, ih]

theorem dpop_cons (kv : ProbKey × ProbVal) (rest : RecDict) (kk : ProbKey) :
    dpop kk (kv :: rest) = if kv.1 = kk then dpop kk rest else kv :: dpop kk rest := by
  simp only [dpop, List.filter_cons]
  by_cases h : kv.1 = kk <;> simp [h]

theorem dlookup_dpop (d : RecDict) (k kk : ProbKey) :
    dlookup k (dpop kk d) = if kk = k then none else dlookup k d := by
  induction d with
  | nil => simp [dpop, dlookup]
  | cons kv rest ih =>
    rw [dpop_cons]
    by_cases h2 : kk = k
    · subst h2
      by_cases h1 : kv.1 = kk <;> simp [dlookup, h1, ih]
    · by_cases h1 : kv.1 = kk <;> simp [dlookup, h1, h2, ih]

theorem mem_dkeys_iff (d : RecDict) (k : ProbKey) :
    k ∈ dkeys d ↔ (dlookup k d).isSome := by
  induction d with
  | nil => simp [dkeys, dlookup]
  | cons kv rest ih =>
    simp only [dkeys, List.map_cons, List.mem_cons, dlookup] at ih ⊢
    by_cases h : kv.1 = k
    · simp [h]
    · simp [Ne.symm h, h, ih]

theorem dkeys_dinsert (d : RecDict) (k : ProbKey) (v : ProbVal) :
    dkeys (dinsert k v d) = if k ∈ dkeys d then dkeys d else dkeys d ++ [k] := by
  induction d with
  | nil => simp [dinsert, dkeys]
  | cons kv rest ih =>
    by_cases h1 : kv.1 = k
    · simp [dinsert, dkeys, h1]
    · simp only [dinsert, if_neg h1, dkeys, List.map_cons] at ih ⊢
      rw [ih]
      by_cases h2 : k ∈ List.map (fun kv => kv.1) rest <;>
        simp [h2, List.mem_cons, Ne.symm h1]

theorem dkeys_dinsert_nodup (d : RecDict) (k : ProbKey) (v : ProbVal)
    (h : (dkeys d).Nodup) : (dkeys (dinsert k v d)).Nodup := by
  rw [dkeys_dinsert]
  by_cases hk : k ∈ dkeys d
  · simpa [hk] using h
  · rw [if_neg hk]
    refine List.Nodup.append h (List.nodup_singleton k) ?_
    intro a ha hmem
    rw [List.mem_singleton] at hmem
    exact hk (hmem ▸ ha)

theorem dkeys_dpop_nodup (d : RecDict) (k : ProbKey)
    (h : (dkeys d).Nodup) : (dkeys (dpop k d)).Nodup := by
  refine h.sublist ?_
  simp only [dkeys, dpop]
  exact List.Sublist.map (fun kv => kv.1) (List.filter_sublist d)

/-! ### Characterising the recommendation set -/

theorem dlookup_gitgudStep_isSome (bucket : Int) (d : RecDict) (p : Problem)
    (k : ProbKey) :
    (dlookup k (gitgudStep bucket d p)).isSome ↔
      candAt bucket k p ∨ (dlookup k d).isSome := by
  unfold gitgudStep
  by_cases h1 : "*special" ∉ p.tags ∧ p.rating = some bucket
  · rw [if_pos h1]
    by_cases h2 : p.contestId.isSome
    · rw [if_pos h2, h1.2]
      simp only [Option.getD_some]
      rw [dlookup_dinsert]
      by_cases hk : (p.name, bucket) = k
      · rw [if_pos hk]
        simp [candAt, h1.1, h1.2, h2, hk]
      · rw [if_neg hk]
        simp [candAt, Ne.symm hk]
    · rw [if_neg h2]
      simp [candAt, h2]
  · rw [if_neg h1]
    constructor
    · exact Or.inr
    · rintro (⟨ha1, ha2, -, -⟩ | hb)
      · exact absurd ⟨ha1, ha2⟩ h1
      · exact hb

theorem dlookup_gitgudStep_some (bucket : Int) (d : RecDict) (p : Problem)
    (k : ProbKey) (v : ProbVal)
    (h : dlookup k (gitgudStep bucket d p) = some v) :
    (candAt bucket k p ∧ p.contestId = some v.1 ∧ p.index = v.2) ∨
      dlookup k d = some v := by
  unfold gitgudStep at h
  by_cases h1 : "*special" ∉ p.tags ∧ p.rating = some bucket
  · rw [if_pos h1] at h
    by_cases h2 : p.contestId.isSome
    · rw [if_pos h2, h1.2] at h
      simp only [Option.getD_some] at h
      rw [dlookup_dinsert] at h
      by_cases hk : (p.name, bucket) = k
      · rw [if_pos hk] at h
        obtain rfl := Option.some.inj h
        refine Or.inl ⟨⟨h1.1, h1.2, h2, hk.symm⟩, ?_, rfl⟩
        obtain ⟨c, hc⟩ := Option.isSome_iff_exists.mp h2
        simp [hc]
      · rw [if_neg hk] at h
        exact Or.inr h
    · rw [if_neg h2] at h
      exact Or.inr h
  · rw [if_neg h1] at h
    exact Or.inr h

theorem dlookup_buildFold_isSome (bucket : Int) (ps : List Problem)
    (d : RecDict) (k : ProbKey) :
    (dlookup k (ps.foldl (gitgudStep bucket) d)).isSome ↔
      (∃ p ∈ ps, candAt bucket k p) ∨ (dlookup k d).isSome := by
  induction ps generalizing d with
  | nil => simp
  | cons p ps ih =>
    rw [List.foldl_cons, ih, dlookup_gitgudStep_isSome]
    constructor
    · rintro (⟨q, hq, hc⟩ | hpc | hb)
      · exact Or.inl ⟨q, List.mem_cons_of_mem _ hq, hc⟩
      · exact Or.inl ⟨p, List.mem_cons_self _ _, hpc⟩
      · exact Or.inr hb
    · rintro (⟨q, hq, hc⟩ | hb)
      · rcases List.mem_cons.mp hq with rfl | hq2
        · exact Or.inr (Or.inl hc)
        · exact Or.inl ⟨q, hq2, hc⟩
      · exact Or.inr (Or.inr hb)

theorem dlookup_buildFold_some (bucket : Int) (ps : List Problem)
    (d : RecDict) (k : ProbKey) (v : ProbVal)
    (h : dlookup k (ps.foldl (gitgudStep bucket) d) = some v) :
    (∃ p ∈ ps, candAt bucket k p ∧ p.contestId = some v.1 ∧ p.index = v.2) ∨
      dlookup k d = some v := by
  induction ps generalizing d with
  | nil => exact Or.inr (by simpa using h)
  | cons p ps ih =>
    rw [List.foldl_cons] at h
    rcases ih _ h with h1 | h2
    · obtain ⟨q, hq, hcq⟩ := h1
      exact Or.inl ⟨q, List.mem_cons_of_mem _ hq, hcq⟩
    · rcases dlookup_gitgudStep_some _ _ _ _ _ h2 with h3 | h4
      · exact Or.inl ⟨p, List.mem_cons_self _ _, h3⟩
      · exact Or.inr h4

theorem dlookup_removeStep (d : RecDict) (sub : Submission) (k : ProbKey) :
    dlookup k (removeStep d sub) =
      if solvesKey k sub then none else dlookup k d := by
  obtain ⟨k1, k2⟩ := k
  unfold removeStep
  by_cases h1 : sub.verdict = "OK" ∧ sub.probRating.isSome
  · rw [if_pos h1]
    obtain ⟨r, hr⟩ := Option.isSome_iff_exists.mp h1.2
    rw [hr]
    simp only [Option.getD_some]
    rw [dlookup_dpop]
    by_cases hn : sub.probName = k1 <;> by_cases hv : r = k2 <;>
      simp [solvesKey, h1.1, hr, hn, hv, Prod.ext_iff]
  · rw [if_neg h1]
    by_cases hv : sub.verdict = "OK"
    · have hr : sub.probRating = none :=
        Option.not_isSome_iff_eq_none.mp (fun hs => h1 ⟨hv, hs⟩)
      simp [solvesKey, hv, hr]
    · simp [solvesKey, hv]

theorem dlookup_removeFold (subs : List Submission) (d : RecDict) (k : ProbKey) :
    dlookup k (subs.foldl removeStep d) =
      if solvedOk subs k then none else dlookup k d := by
  induction subs generalizing d with
  | nil => simp [solvedOk]
  | cons sub subs ih =>
    rw [List.foldl_cons, ih, dlookup_removeStep]
    by_cases h1 : solvesKey k sub <;> by_cases h2 : solvedOk subs k <;>
      simp [solvedOk, List.any_cons, h1, h2]

theorem gitgudStep_keys_nodup (bucket : Int) (d : RecDict) (p : Problem)
    (h : (dkeys d).Nodup) : (dkeys (gitgudStep bucket d p)).Nodup := by
  unfold gitgudStep
  by_cases h1 : "*special" ∉ p.tags ∧ p.rating = some bucket
  · rw [if_pos h1]
    by_cases h2 : p.contestId.isSome
    · rw [if_pos h2]
      exact dkeys_dinsert_nodup _ _ _ h
    · rwa [if_neg h2]
  · rwa [if_neg h1]

theorem removeStep_keys_nodup (d : RecDict) (sub : Submission)
    (h : (dkeys d).Nodup) : (dkeys (removeStep d sub)).Nodup := by
  unfold removeStep
  by_cases h1 : sub.verdict = "OK" ∧ sub.probRating.isSome
  · rw [if_pos h1]
    exact dkeys_dpop_nodup _ _ h
  · rwa [if_neg h1]

theorem buildFold_keys_nodup (bucket : Int) (ps : List Problem) (d : RecDict)
    (h : (dkeys d).Nodup) : (dkeys (ps.foldl (gitgudStep bucket) d)).Nodup := by
  induction ps generalizing d with
  | nil => simpa using h
  | cons p ps ih =>
    rw [List.foldl_cons]
    exact ih _ (gitgudStep_keys_nodup _ _ _ h)

theorem removeFold_keys_nodup (subs : List Submission) (d : RecDict)
    (h : (dkeys d).Nodup) : (dkeys (subs.foldl removeStep d)).Nodup := by
  induction subs generalizing d with
  | nil => simpa using h
  | cons sub subs ih =>
    rw [List.foldl_cons]
    exact ih _ (removeStep_keys_nodup _ _ h)

theorem recommendations_keys_nodup (bucket : Int) (problems : List Problem)
    (subs : List Submission) :
    (dkeys (recommendations bucket problems subs)).Nodup :=
  removeFold_keys_nodup subs _
    (buildFold_keys_nodup bucket problems [] (by simp [dkeys]))

/-! ### Characterising the solved set -/

theorem mem_solvedStep (s : Finset ProbKey) (sub : Submission) (k : ProbKey) :
    k ∈ solvedStep s sub ↔
      (sub.verdict = "OK" ∧ ∃ r : Int, sub.probRating = some r ∧ r ≠ 0 ∧
        k = (sub.probName, r)) ∨ k ∈ s := by
  unfold solvedStep
  by_cases hv : sub.verdict = "OK"
  · rw [if_pos hv]
    rcases hr : sub.probRating with _ | r
    · simp [truthyInt, hv, hr]
    · simp only [Option.getD_some]
      by_cases h0 : r = 0
      · subst h0
        simp [truthyInt, hv, hr]
      · simp [truthyInt, hv, hr, h0, Finset.mem_insert]
  · rw [if_neg hv]
    simp [hv]

theorem mem_solvedFold (subs : List Submission) (s : Finset ProbKey)
    (k : ProbKey) :
    k ∈ subs.foldl solvedStep s ↔
      (∃ sub ∈ subs, sub.verdict = "OK" ∧ ∃ r : Int, sub.probRating = some r ∧
        r ≠ 0 ∧ k = (sub.probName, r)) ∨ k ∈ s := by
  induction subs generalizing s with
  | nil => simp
  | cons sub subs ih =>
    rw [List.foldl_cons, ih, mem_solvedStep]
    constructor
    · rintro (⟨q, hq, hc⟩ | hpc | hb)
      · exact Or.inl ⟨q, List.mem_cons_of_mem _ hq, hc⟩
      · exact Or.inl ⟨sub, List.mem_cons_self _ _, hpc⟩
      · exact Or.inr hb
    · rintro (⟨q, hq, hc⟩ | hb)
      · rcases List.mem_cons.mp hq with rfl | hq2
        · exact Or.inr (Or.inl hc)
        · exact Or.inl ⟨q, hq2, hc⟩
      · exact Or.inr (Or.inr hb)

theorem solvedSeries_card (subs : List Submission) :
    Multiset.card (solvedSeries subs) = (solvedSet subs).card := by
  unfold solvedSeries
  rw [Multiset.card_map]
  rfl

/-! ### Stepping the rating and solved loops -/

theorem ratingLoop_reaches (env : String → Option (RespJson RatingChange))
    (pre rest : List String) (acc : List (String × Int)) (calls : List String) :
    (∀ x ∈ pre, ∃ l, env x = some (RespJson.ok l) ∧ l ≠ []) →
    ∃ acc2, ratingLoop env (pre ++ rest) acc calls =
      ratingLoop env rest acc2 (calls ++ pre) := by
  induction pre generalizing acc calls with
  | nil => exact fun _ => ⟨acc, by simp⟩
  | cons x xs ih =>
    intro hpre
    obtain ⟨l, hx, hne⟩ := hpre x (List.mem_cons_self _ _)
    have hmapne : l.map (fun c => c.newRating) ≠ [] := by simpa using hne
    obtain ⟨r, hr⟩ :=
      Option.isSome_iff_exists.mp (List.getLast?_isSome.mpr hmapne)
    have step : ratingLoop env ((x :: xs) ++ rest) acc calls =
        ratingLoop env (xs ++ rest) (acc ++ [(x, r)]) (calls ++ [x]) := by
      show ratingLoop env (x :: (xs ++ rest)) acc calls = _
      simp [ratingLoop, hx, hr]
    obtain ⟨acc2, h2⟩ :=
      ih (acc ++ [(x, r)]) (calls ++ [x])
        (fun y hy => hpre y (List.mem_cons_of_mem _ hy))
    refine ⟨acc2, step.trans (h2.trans ?_)⟩
    rw [List.append_assoc, List.singleton_append]

theorem solvedLoop_reaches (env : String → Option (RespJson Submission))
    (numHandles : Nat) (pre rest : List String)
    (acc : List (String × Multiset Int)) (calls : List String) :
    (∀ x ∈ pre, ∃ l, env x = some (RespJson.ok l)) →
    ∃ acc2, solvedLoop env numHandles (pre ++ rest) acc calls =
      solvedLoop env numHandles rest acc2 (calls ++ pre) := by
  induction pre generalizing acc calls with
  | nil => exact fun _ => ⟨acc, by simp⟩
  | cons x xs ih =>
    intro hpre
    obtain ⟨l, hx⟩ := hpre x (List.mem_cons_self _ _)
    have step : solvedLoop env numHandles ((x :: xs) ++ rest) acc calls =
        solvedLoop env numHandles (xs ++ rest)
          (acc ++ [(x, solvedSeries l)]) (calls ++ [x]) := by
      show solvedLoop env numHandles (x :: (xs ++ rest)) acc calls = _
      simp [solvedLoop, hx]
    obtain ⟨acc2, h2⟩ :=
      ih (acc ++ [(x, solvedSeries l)]) (calls ++ [x])
        (fun y hy => hpre y (List.mem_cons_of_mem _ hy))
    refine ⟨acc2, step.trans (h2.trans ?_)⟩
    rw [List.append_assoc, List.singleton_append]

theorem ratingCmd_go (env : String → Option (RespJson RatingChange))
    (handles : List String) (hne : handles ≠ []) (hlen : handles.length ≤ 5) :
    ratingCmd env handles = ratingLoop env handles [] [] := by
  unfold ratingCmd
  rw [if_neg]
  simp [hne, Nat.not_lt.mpr hlen]

theorem solvedCmd_go (env : String → Option (RespJson Submission))
    (handles : List String) (hne : handles ≠ []) (hlen : handles.length ≤ 5) :
    solvedCmd env handles = solvedLoop env handles.length handles [] [] := by
  unfold solvedCmd
  rw [if_neg]
  simp [hne, Nat.not_lt.mpr hlen]

/-! ### The claims -/

theorem round_rating_eq (r : Int) :
    round_rating r = if r % 100 ≥ 50 then r - r % 100 + 100 else r - r % 100 :=
  rfl

/-- C3: `round_rating` maps 149 to 100, 150 to 200, 1649 to 1600, 1650 to
1700 and 0 to 0; and for every non-negative rating it returns a multiple of
100 at least as close to the rating as every other multiple of 100, with a
remainder of exactly 50 rounding up. -/
theorem round_rating_correct :
    (round_rating 149 = 100 ∧ round_rating 150 = 200 ∧
      round_rating 1649 = 1600 ∧ round_rating 1650 = 1700 ∧
      round_rating 0 = 0) ∧
    ∀ r : Int, 0 ≤ r →
      round_rating r % 100 = 0 ∧
      (∀ m : Int, m % 100 = 0 →
        (round_rating r - r).natAbs ≤ (m - r).natAbs) ∧
      (r % 100 = 50 → round_rating r = r + 50) := by
  refine ⟨by decide, fun r _ => ⟨?_, fun m hm => ?_, fun h50 => ?_⟩⟩ <;>
    rw [round_rating_eq] <;> split_ifs <;> omega

/-- Witness for C3 at rating 1650 against the multiple 1700. -/
theorem round_rating_correct_witness :
    round_rating 1650 % 100 = 0 ∧
    (round_rating 1650 - 1650).natAbs ≤ ((1700 : Int) - 1650).natAbs ∧
    round_rating 1650 = 1650 + 50 :=
  ⟨(round_rating_correct.2 1650 (by decide)).1,
   (round_rating_correct.2 1650 (by decide)).2.1 1700 (by decide),
   (round_rating_correct.2 1650 (by decide)).2.2 (by decide)⟩

/-- C4 counterexample: with two handles the bins step by 200 from 500, so
the last edge is 3900 and 3800 is not an edge: the edges do not run from
500 to 3800 inclusive. -/
theorem histBins_cex :
    (histBins 2).getLast? = some 3900 ∧ 3800 ∉ histBins 2 := by
  decide

/-- C4 amended: bins step by 100 for one handle and by 200 for two to five
handles, the first edge is always 500, the last edge is 3800 for one handle
and 3900 otherwise — in both cases at least 3800, so the interval from 500
to 3800 is always covered. -/
theorem histBins_correct (n : Nat) (h1 : 1 ≤ n) (h5 : n ≤ 5) :
    histStep n = (if n = 1 then 100 else 200) ∧
    (histBins n).head? = some 500 ∧
    (histBins n).getLast? = some (if n = 1 then 3800 else 3900) ∧
    3800 ≤ (histBins n).getLast?.getD 0 ∧
    ((histBins n).zip (histBins n).tail).all
      (fun p => p.2 == p.1 + histStep n) = true := by
  interval_cases n <;>
    exact ⟨rfl, by decide, by decide, by decide, by decide⟩

/-- Witness for C4 amended at two handles. -/
theorem histBins_correct_witness :
    (histBins 2).head? = some 500 ∧
    (histBins 2).getLast? = some (if 2 = 1 then 3800 else 3900) :=
  ⟨(histBins_correct 2 (by decide) (by decide)).2.1,
   (histBins_correct 2 (by decide) (by decide)).2.2.1⟩

/-- C5: with zero or more than five handles, both `rating` and `solved`
reply with the handle-count message and issue no API call at all. -/
theorem badHandleCount_no_call
    (envR : String → Option (RespJson RatingChange))
    (envS : String → Option (RespJson Submission)) (handles : List String)
    (h : handles = [] ∨ 5 < handles.length) :
    ratingCmd envR handles = ([], RatingReply.message badCountMsg) ∧
    solvedCmd envS handles = ([], SolvedReply.message badCountMsg) := by
  unfold ratingCmd solvedCmd
  rcases h with rfl | h
  · simp
  · simp [h]

/-- Witness for C5 at six handles. -/
theorem badHandleCount_no_call_witness :
    ratingCmd (fun _ => none) ["a", "b", "c", "d", "e", "f"]
        = ([], RatingReply.message badCountMsg) ∧
    solvedCmd (fun _ => none) ["a", "b", "c", "d", "e", "f"]
        = ([], SolvedReply.message badCountMsg) :=
  badHandleCount_no_call _ _ _ (Or.inr (by decide))

/-- C9: `gitgud` never checks its three fetch responses for null: if any of
them is `none`, the command ends in an unhandled fault (no user-visible
reply of any kind). -/
theorem gitgud_null_resp_faults (handle : String)
    (probresp : Option (List Problem)) (inforesp : Option UserInfo)
    (subsresp : Option (List Submission)) (contestEnv : Int → Option String)
    (i : Nat)
    (h : probresp = none ∨ inforesp = none ∨ subsresp = none) :
    ∃ f, gitgudCmd handle probresp inforesp subsresp contestEnv i =
      Except.error f := by
  unfold gitgudCmd
  cases inforesp with
  | none => exact ⟨.nullInfo, rfl⟩
  | some info =>
    cases probresp with
    | none => exact ⟨.nullProb, rfl⟩
    | some problems =>
      cases subsresp with
      | none => exact ⟨.nullSubs, rfl⟩
      | some subs =>
        rcases h with h | h | h <;> exact Option.noConfusion h

/-- Witness for C9: all three fetches fail. -/
theorem gitgud_null_resp_faults_witness :
    ∃ f, gitgudCmd "tourist" none none none (fun _ => none) 0 =
      Except.error f :=
  gitgud_null_resp_faults "tourist" none none none (fun _ => none) 0
    (Or.inl rfl)

/-- C10: a handle whose `user.rating` response is OK with an empty result
list makes `rating` fault at `ratings[-1]` — no chart and no message. -/
theorem rating_empty_history_faults
    (env : String → Option (RespJson RatingChange))
    (pre post : List String) (h : String)
    (hlen : (pre ++ h :: post).length ≤ 5)
    (hpre : ∀ x ∈ pre, ∃ l, env x = some (RespJson.ok l) ∧ l ≠ [])
    (hh : env h = some (RespJson.ok [])) :
    ratingCmd env (pre ++ h :: post) = (pre ++ [h], RatingReply.indexFault) := by
  rw [ratingCmd_go _ _ (by simp) hlen]
  obtain ⟨acc2, heq⟩ := ratingLoop_reaches env pre (h :: post) [] [] hpre
  rw [heq]
  simp [ratingLoop, hh]

/-- Witness for C10: one valid handle that never took part in a rated
contest. -/
theorem rating_empty_history_faults_witness :
    ratingCmd (fun _ => some (RespJson.ok [])) ["newbie"]
      = (["newbie"], RatingReply.indexFault) :=
  rating_empty_history_faults (fun _ => some (RespJson.ok [])) [] [] "newbie"
    (by decide) (fun x hx => absurd hx (List.not_mem_nil x)) rfl

/-- C6: the first handle whose response has status FAILED aborts both
`rating` and `solved`: the reply is the handle-naming message when the
comment contains "not found" and the generic denial otherwise, the loop
stops there, and no chart is sent. -/
theorem failed_status_aborts
    (envR : String → Option (RespJson RatingChange))
    (envS : String → Option (RespJson Submission))
    (pre post : List String) (h c : String)
    (hlen : (pre ++ h :: post).length ≤ 5)
    (hpreR : ∀ x ∈ pre, ∃ l, envR x = some (RespJson.ok l) ∧ l ≠ [])
    (hpreS : ∀ x ∈ pre, ∃ l, envS x = some (RespJson.ok l))
    (hfR : envR h = some (RespJson.failed c))
    (hfS : envS h = some (RespJson.failed c)) :
    ratingCmd envR (pre ++ h :: post) =
      (pre ++ [h], RatingReply.message
        (if strIn "not found" c then handleNotFoundMsg h else deniedMsg)) ∧
    solvedCmd envS (pre ++ h :: post) =
      (pre ++ [h], SolvedReply.message
        (if strIn "not found" c then handleNotFoundMsg h else deniedMsg)) := by
  constructor
  · rw [ratingCmd_go _ _ (by simp) hlen]
    obtain ⟨acc2, heq⟩ := ratingLoop_reaches envR pre (h :: post) [] [] hpreR
    rw [heq]
    by_cases hin : strIn "not found" c <;> simp [ratingLoop, hfR, hin]
  · rw [solvedCmd_go _ _ (by simp) hlen]
    obtain ⟨acc2, heq⟩ :=
      solvedLoop_reaches envS (pre ++ h :: post).length pre (h :: post) [] [] hpreS
    rw [heq]
    by_cases hin : strIn "not found" c <;> simp [solvedLoop, hfS, hin]

/-- Witness for C6: a single unknown handle, comment containing
"not found". -/
theorem failed_status_aborts_witness :
    ratingCmd (fun _ => some (RespJson.failed "User zzz not found")) ["zzz"]
      = (["zzz"], RatingReply.message (handleNotFoundMsg "zzz")) := by
  have hw := (failed_status_aborts
      (fun _ => some (RespJson.failed "User zzz not found"))
      (fun _ => some (RespJson.failed "User zzz not found"))
      [] [] "zzz" "User zzz not found" (by decide)
      (fun x hx => absurd hx (List.not_mem_nil x))
      (fun x hx => absurd hx (List.not_mem_nil x)) rfl rfl).1
  rw [if_pos (by decide : strIn "not found" "User zzz not found" = true)] at hw
  exact hw

/-- C7: `query_api` turns a connection error into `none` instead of
raising, and a `none` response for a handle makes both `rating` and
`solved` reply the connection-error message and return at once: the call
log stops at that handle and no image is sent. -/
theorem connError_aborts (α : Type) (e : String)
    (envR : String → Option (RespJson RatingChange))
    (envS : String → Option (RespJson Submission))
    (pre post : List String) (h : String)
    (hlen : (pre ++ h :: post).length ≤ 5)
    (hpreR : ∀ x ∈ pre, ∃ l, envR x = some (RespJson.ok l) ∧ l ≠ [])
    (hpreS : ∀ x ∈ pre, ∃ l, envS x = some (RespJson.ok l))
    (hhR : envR h = none) (hhS : envS h = none) :
    query_api (Transport.connError e : Transport α) = none ∧
    ratingCmd envR (pre ++ h :: post) =
      (pre ++ [h], RatingReply.message connErrMsg) ∧
    solvedCmd envS (pre ++ h :: post) =
      (pre ++ [h], SolvedReply.message connErrMsg) := by
  refine ⟨rfl, ?_, ?_⟩
  · rw [ratingCmd_go _ _ (by simp) hlen]
    obtain ⟨acc2, heq⟩ := ratingLoop_reaches envR pre (h :: post) [] [] hpreR
    rw [heq]
    simp [ratingLoop, hhR]
  · rw [solvedCmd_go _ _ (by simp) hlen]
    obtain ⟨acc2, heq⟩ :=
      solvedLoop_reaches envS (pre ++ h :: post).length pre (h :: post) [] [] hpreS
    rw [heq]
    simp [solvedLoop, hhS]

/-- Witness for C7: one handle, service unreachable. -/
theorem connError_aborts_witness :
    query_api (Transport.connError "boom" : Transport Nat) = none ∧
    ratingCmd (fun _ => none) ["a"] = (["a"], RatingReply.message connErrMsg) :=
  ⟨(connError_aborts Nat "boom" (fun _ => none) (fun _ => none) [] [] "a"
      (by decide) (fun x hx => absurd hx (List.not_mem_nil x))
      (fun x hx => absurd hx (List.not_mem_nil x)) rfl rfl).1,
   (connError_aborts Nat "boom" (fun _ => none) (fun _ => none) [] [] "a"
      (by decide) (fun x hx => absurd hx (List.not_mem_nil x))
      (fun x hx => absurd hx (List.not_mem_nil x)) rfl rfl).2.1⟩

/-- C2: with the bucket computed as `round_rating` of the user's rating
(500 when unrated), a key is in the recommendation dict exactly when some
problem is a candidate for it (non-special, rating equal to the bucket,
contest id present) and the user has no OK submission for it; and each
surviving entry's value is the `(contestId, index)` of such a problem. -/
theorem recommendations_correct (info : UserInfo) (problems : List Problem)
    (subs : List Submission) (k : ProbKey) (bucket : Int)
    (_hb : bucket = round_rating (info.rating.getD 500)) :
    ((dlookup k (recommendations bucket problems subs)).isSome ↔
      (∃ p ∈ problems, candAt bucket k p) ∧ solvedOk subs k = false) ∧
    ∀ v, dlookup k (recommendations bucket problems subs) = some v →
      ∃ p ∈ problems, candAt bucket k p ∧ p.contestId = some v.1 ∧
        p.index = v.2 := by
  constructor
  · unfold recommendations
    rw [dlookup_removeFold]
    by_cases hs : solvedOk subs k
    · simp [hs]
    · rw [if_neg hs]
      unfold buildRecs
      rw [dlookup_buildFold_isSome]
      simp [dlookup, Bool.not_eq_true _ ▸ hs]
  · intro v hv
    unfold recommendations at hv
    rw [dlookup_removeFold] at hv
    by_cases hs : solvedOk subs k
    · rw [if_pos hs] at hv
      exact Option.noConfusion hv
    · rw [if_neg hs] at hv
      unfold buildRecs at hv
      rcases dlookup_buildFold_some _ _ _ _ _ hv with h1 | h2
      · exact h1
      · exact Option.noConfusion h2

/-- Witness for C2: one matching problem, no solved submissions. -/
theorem recommendations_correct_witness :
    ((dlookup ("p", (500 : Int))
        (recommendations (round_rating 500)
          [⟨"p", "A", [], some 500, some 7⟩] [])).isSome ↔
      (∃ p ∈ [(⟨"p", "A", [], some 500, some 7⟩ : Problem)],
          candAt (round_rating 500) ("p", (500 : Int)) p) ∧
        solvedOk [] ("p", (500 : Int)) = false) ∧
    ∀ v, dlookup ("p", (500 : Int))
        (recommendations (round_rating 500)
          [⟨"p", "A", [], some 500, some 7⟩] []) = some v →
      ∃ p ∈ [(⟨"p", "A", [], some 500, some 7⟩ : Problem)],
        candAt (round_rating 500) ("p", (500 : Int)) p ∧
          p.contestId = some v.1 ∧ p.index = v.2 :=
  recommendations_correct ⟨some 500⟩ _ _ _ _ rfl

/-- C8 counterexample: a submission with verdict OK and the defined rating
0 is dropped by `solved`'s truthiness test `if rating:`, so its
`(name, 0)` pair is not in the solved set even though the claim requires
it. -/
theorem solvedSet_cex :
    (⟨"OK", "p", some 0⟩ : Submission).verdict = "OK" ∧
    (⟨"OK", "p", some 0⟩ : Submission).probRating = some 0 ∧
    ("p", (0 : Int)) ∉ solvedSet [⟨"OK", "p", some 0⟩] := by
  exact ⟨rfl, rfl, by decide⟩

/-- C8 amended: the per-handle solved set contains exactly the
`(name, rating)` pairs of OK submissions whose rating is present and
nonzero (Python truthiness), duplicates collapsed; the plotted series is
the multiset of ratings of that set and the legend count equals the set's
size. -/
theorem solvedSet_correct (subs : List Submission) (k : ProbKey) :
    (k ∈ solvedSet subs ↔
      ∃ sub ∈ subs, sub.verdict = "OK" ∧ ∃ r : Int,
        sub.probRating = some r ∧ r ≠ 0 ∧ k = (sub.probName, r)) ∧
    Multiset.card (solvedSeries subs) = (solvedSet subs).card := by
  refine ⟨?_, solvedSeries_card subs⟩
  unfold solvedSet
  rw [mem_solvedFold]
  simp

theorem gitgudPick_nonempty (handle : String) (recs : RecDict)
    (contestEnv : Int → Option String) (i : Nat) (cn : String)
    (hne : recs ≠ [])
    (hcn : contestEnv (gitgudVal recs i).1 = some cn) :
    gitgudPick handle recs contestEnv i =
      Except.ok (GitgudOutcome.recommend (gitgudChoice recs i)
        (gitgudVal recs i).1 (gitgudVal recs i).2
        ((gitgudVal recs i).2 ++ ". " ++ (gitgudChoice recs i).1)
        (problemUrl (gitgudVal recs i).1 (gitgudVal recs i).2)
        (cn ++ "\nRating: " ++ toString (gitgudChoice recs i).2)) := by
  simp only [gitgudPick]
  rw [if_neg (by simp [hne]), hcn]

/-- C1: with the three fetches present and contest lookups succeeding, the
recommendation dict is empty iff `gitgud` replies with the "already too
gud" message naming the handle; otherwise exactly one candidate is chosen
— the `i % n`-th entry of the duplicate-free key list, so a uniform random
index gives a uniform random key — and the chosen `(name, rating)` pair
has no OK submission by the user. -/
theorem gitgud_outcome_correct (handle : String) (problems : List Problem)
    (info : UserInfo) (subs : List Submission)
    (contestEnv : Int → Option String) (i : Nat) (recs : RecDict)
    (hc : ∀ cid, (contestEnv cid).isSome)
    (hrecs : recs = recommendations (round_rating (info.rating.getD 500))
      problems subs) :
    gitgudCmd handle (some problems) (some info) (some subs) contestEnv i =
      gitgudPick handle recs contestEnv i ∧
    (recs = [] ↔ gitgudPick handle recs contestEnv i =
      Except.ok (GitgudOutcome.tooGud (handle ++ " is already too gud"))) ∧
    (recs ≠ [] →
      (dkeys recs).Nodup ∧ gitgudChoice recs i ∈ dkeys recs ∧
      solvedOk subs (gitgudChoice recs i) = false ∧
      ∃ cid idx title url desc,
        gitgudPick handle recs contestEnv i =
          Except.ok (GitgudOutcome.recommend (gitgudChoice recs i)
            cid idx title url desc)) := by
  subst hrecs
  obtain ⟨cn, hcn⟩ := Option.isSome_iff_exists.mp
    (hc (gitgudVal (recommendations (round_rating (info.rating.getD 500))
      problems subs) i).1)
  refine ⟨rfl, ⟨fun hemp => by rw [hemp]; rfl, fun heq => ?_⟩, fun hne => ?_⟩
  · by_contra hne
    rw [gitgudPick_nonempty handle _ contestEnv i cn hne hcn] at heq
    simp at heq
  · have hkeysne :
        dkeys (recommendations (round_rating (info.rating.getD 500))
          problems subs) ≠ [] := by
      simp [dkeys, hne]
    have hlt := Nat.mod_lt i (List.length_pos.mpr hkeysne)
    have hmem :
        gitgudChoice (recommendations (round_rating (info.rating.getD 500))
            problems subs) i ∈
          dkeys (recommendations (round_rating (info.rating.getD 500))
            problems subs) := by
      rw [gitgudChoice, List.getD_eq_getElem _ _ hlt]
      exact List.getElem_mem hlt
    refine ⟨recommendations_keys_nodup _ _ _, hmem, ?_,
      ⟨_, _, _, _, _, gitgudPick_nonempty handle _ contestEnv i cn hne hcn⟩⟩
    have hsome := (mem_dkeys_iff _ _).mp hmem
    revert hsome
    generalize gitgudChoice (recommendations (round_rating (info.rating.getD 500))
      problems subs) i = kk
    intro hsome
    unfold recommendations at hsome
    rw [dlookup_removeFold] at hsome
    by_cases hs : solvedOk subs kk
    · rw [if_pos hs] at hsome
      simp at hsome
    · simpa using hs

/-- Witness for C1: one candidate problem, nothing solved yet. -/
theorem gitgud_outcome_correct_witness :
    ([(("p", (500 : Int)), ((7 : Int), "A"))] = [] ↔
      gitgudPick "alice" [(("p", (500 : Int)), ((7 : Int), "A"))]
          (fun _ => some "Contest 7") 0 =
        Except.ok (GitgudOutcome.tooGud ("alice" ++ " is already too gud"))) :=
  (gitgud_outcome_correct "alice" [⟨"p", "A", [], some 500, some 7⟩]
    ⟨some 500⟩ [] (fun _ => some "Contest 7") 0
    [(("p", (500 : Int)), ((7 : Int), "A"))]
    (fun _ => rfl) (by decide)).2.1

/-- Witness for C8 amended. -/
theorem solvedSet_correct_witness :
    (("p", (800 : Int)) ∈ solvedSet [⟨"OK", "p", some 800⟩] ↔
      ∃ sub ∈ [(⟨"OK", "p", some 800⟩ : Submission)], sub.verdict = "OK" ∧
        ∃ r : Int, sub.probRating = some r ∧ r ≠ 0 ∧
          ("p", (800 : Int)) = (sub.probName, r)) ∧
    Multiset.card (solvedSeries [⟨"OK", "p", some 800⟩]) =
      (solvedSet [⟨"OK", "p", some 800⟩]).card :=
  solvedSet_correct _ _

